import Mathlib

set_option autoImplicit false

/-!
Shallow embedding of the neogma statement-generation layer:
`src/QueryRunner/QueryRunner.ts` (the four assembler operations) and
`src/Errors/NeogmaNotFoundError.ts`.  `QueryRunner.ts` imports `BindParam`
and `WhereStatementI` from `./Where`, a file that is not part of the
reviewed sources; the `BindParam` registry operations are therefore
modelled from the specification (section 4.1) and are marked as such in
their doc comments.

JavaScript objects used as parameter registries are embedded as ordered
association lists (`Reg`); object references/aliasing are embedded with an
explicit `Heap` of registries addressed by numeric ids, so that in-place
mutation (`add`, `getUniqueNameAndAdd`) and copying (`clone`) are
distinguishable.  Delegation to `session.run` is embedded by returning the
`(statement, parameters)` pair that the code hands to `run`; a thrown
`TypeError` is embedded as `Except.error`.
-/

/-- Scalar JavaScript values appearing as object fields. -/
inductive Prim where
  | num (n : Int)
  | str (s : String)
  deriving DecidableEq, Repr

/-- Values stored in a bound-parameter registry: scalars, or the list of
plain objects that bulk-create stores whole under one parameter name. -/
inductive Value where
  | prim (p : Prim)
  | objArr (objs : List (List (String × Prim)))
  deriving DecidableEq, Repr

/-- A registry's contents: an ordered association list from parameter name
to value (JavaScript object insertion order). -/
abbrev Reg := List (String × Value)

/-- The parameter names currently present in a registry. -/
def BindParam.keys (b : Reg) : List String := b.map Prod.fst

/-- First-match lookup of a parameter name, as JavaScript property access
on a plain object with these entries. -/
def BindParam.lookup : Reg → String → Option Value
  | [], _ => none
  | (k, v) :: rest, n => if k = n then some v else BindParam.lookup rest n

/-- Concatenation of all names in a registry, used only as the (in practice
unreachable) fallback of the bounded unique-name search: it is longer than
every individual name, hence never itself a used name. -/
def BindParam.joined (ks : List String) : String := ks.foldl (fun a s => a ++ s) ""

/-- Fallback candidate for the unique-name search. -/
def BindParam.fallbackName (ks : List String) (pref : String) : String :=
  pref ++ BindParam.joined ks ++ "0"

/-- Bounded search for the smallest integer suffix making `pref ++ suffix`
unused; `fuel` exceeds the number of used names, so the fallback is never
reached in practice. -/
def BindParam.searchName (ks : List String) (pref fb : String) : Nat → Nat → String
  | 0, _ => fb
  | fuel + 1, k =>
      if (pref ++ toString k) ∈ ks then BindParam.searchName ks pref fb fuel (k + 1)
      else pref ++ toString k

/-- Modelled from the spec: the name-derivation half of
`BindParam.getUniqueNameAndAdd` (`Where.ts` is not among the reviewed
sources).  "if `preferredName` is free, stores it under that exact name;
otherwise derives a unique variant deterministically (e.g. append the
smallest unused integer suffix)". -/
def BindParam.getUniqueName (b : Reg) (pref : String) : String :=
  if pref ∈ BindParam.keys b then
    BindParam.searchName (BindParam.keys b) pref
      (BindParam.fallbackName (BindParam.keys b) pref) ((BindParam.keys b).length + 1) 1
  else pref

/-- Modelled from the spec: `getUniqueNameAndAdd(preferredName, value)`
stores `value` under the derived free name and returns the name actually
used.  Returns the updated registry contents together with that name. -/
def BindParam.getUniqueNameAndAdd (b : Reg) (pref : String) (v : Value) : Reg × String :=
  let n := BindParam.getUniqueName b pref
  (b ++ [(n, v)], n)

/-- Modelled from the spec: `add(values)` "merges a plain mapping of
field→value into the registry, generating fresh unique keys for colliding
field names; returns the registry (chainable)". -/
def BindParam.add (b : Reg) (values : Reg) : Reg :=
  values.foldl (fun acc kv => (BindParam.getUniqueNameAndAdd acc kv.1 kv.2).1) b

theorem BindParam.foldl_append_length (ks : List String) (acc : String) :
    (ks.foldl (fun a s => a ++ s) acc).length = acc.length + (ks.map String.length).sum := by
  induction ks generalizing acc with
  | nil => simp
  | cons s rest ih => simp [ih, String.length_append]; omega

theorem BindParam.mem_length_le (ks : List String) (s : String) (h : s ∈ ks) :
    s.length ≤ (ks.map String.length).sum := by
  induction ks with
  | nil => cases h
  | cons t rest ih =>
      rcases List.mem_cons.mp h with h | h
      · subst h; simp
      · have := ih h; simp; omega

theorem BindParam.fallbackName_not_mem (ks : List String) (pref : String) :
    BindParam.fallbackName ks pref ∉ ks := by
  intro hmem
  have h1 := BindParam.mem_length_le ks _ hmem
  have h2 : (BindParam.fallbackName ks pref).length
      = pref.length + (ks.map String.length).sum + 1 := by
    simp [BindParam.fallbackName, BindParam.joined, String.length_append,
      BindParam.foldl_append_length]
    rfl
  omega

theorem BindParam.searchName_not_mem (ks : List String) (pref fb : String) (hfb : fb ∉ ks) :
    ∀ fuel k, BindParam.searchName ks pref fb fuel k ∉ ks := by
  intro fuel
  induction fuel with
  | zero => intro k; simpa [BindParam.searchName] using hfb
  | succ n ih =>
      intro k
      simp only [BindParam.searchName]
      split
      · exact ih (k + 1)
      · assumption

theorem BindParam.getUniqueName_not_mem (b : Reg) (pref : String) :
    BindParam.getUniqueName b pref ∉ BindParam.keys b := by
  unfold BindParam.getUniqueName
  split
  · exact BindParam.searchName_not_mem _ _ _ (BindParam.fallbackName_not_mem _ _) _ _
  · assumption

theorem BindParam.keys_append (l m : Reg) :
    BindParam.keys (l ++ m) = BindParam.keys l ++ BindParam.keys m := by
  simp [BindParam.keys]

theorem BindParam.lookup_append_left (l m : Reg) (n : String) (v : Value)
    (h : BindParam.lookup l n = some v) : BindParam.lookup (l ++ m) n = some v := by
  induction l with
  | nil => simp [BindParam.lookup] at h
  | cons kv rest ih =>
      obtain ⟨k, w⟩ := kv
      by_cases hk : k = n
      · simp [BindParam.lookup, hk] at h ⊢; exact h
      · simp [BindParam.lookup, hk] at h ⊢; exact ih h

theorem BindParam.lookup_append_right (l m : Reg) (n : String)
    (h : n ∉ BindParam.keys l) : BindParam.lookup (l ++ m) n = BindParam.lookup m n := by
  induction l with
  | nil => simp
  | cons kv rest ih =>
      obtain ⟨k, w⟩ := kv
      have hk : k ≠ n := by
        intro he; exact h (by simp [BindParam.keys, he])
      have hrest : n ∉ BindParam.keys rest := by
        intro he; exact h (by simp [BindParam.keys] at he ⊢; exact Or.inr he)
      simp [BindParam.lookup, hk]
      exact ih hrest

theorem BindParam.lookup_eq_none (l : Reg) (n : String)
    (h : n ∉ BindParam.keys l) : BindParam.lookup l n = none := by
  induction l with
  | nil => rfl
  | cons kv rest ih =>
      obtain ⟨k, w⟩ := kv
      have hk : k ≠ n := by
        intro he; exact h (by simp [BindParam.keys, he])
      have hrest : n ∉ BindParam.keys rest := by
        intro he; exact h (by simp [BindParam.keys] at he ⊢; exact Or.inr he)
      simp [BindParam.lookup, hk]
      exact ih hrest

theorem BindParam.lookup_snoc_self (l : Reg) (n : String) (v : Value)
    (h : n ∉ BindParam.keys l) : BindParam.lookup (l ++ [(n, v)]) n = some v := by
  rw [BindParam.lookup_append_right l _ n h]
  simp [BindParam.lookup]

/-- Heap of registry objects: `BindParam` instances are JavaScript objects,
embedded as numeric ids into this list so that in-place mutation and
cloning are distinguishable. -/
structure Heap where
  regs : List Reg
  deriving DecidableEq, Repr

def Heap.regsGet : List Reg → Nat → Reg
  | [], _ => []
  | r :: _, 0 => r
  | _ :: rs, n + 1 => Heap.regsGet rs n

def Heap.regsSet : List Reg → Nat → Reg → List Reg
  | [], _, _ => []
  | _ :: rs, 0, x => x :: rs
  | r :: rs, n + 1, x => r :: Heap.regsSet rs n x

/-- Modelled from the spec: `get()` "returns the current mapping, suitable
for direct submission as query parameters". -/
def Heap.getReg (h : Heap) (id : Nat) : Reg := Heap.regsGet h.regs id

def Heap.setReg (h : Heap) (id : Nat) (b : Reg) : Heap := ⟨Heap.regsSet h.regs id b⟩

/-- Allocation of a fresh `BindParam` object seeded with the given
contents (the `new BindParam(mapping)` constructor). -/
def Heap.alloc (h : Heap) (b : Reg) : Heap × Nat := (⟨h.regs ++ [b]⟩, h.regs.length)

/-- Modelled from the spec: `acquire` "returns the given registry
unchanged if already a registry instance; ... a missing argument yields a
fresh empty registry". -/
def Heap.acquire (h : Heap) (o : Option Nat) : Heap × Nat :=
  match o with
  | some id => (h, id)
  | none => Heap.alloc h []

/-- Modelled from the spec: `clone()` "returns a new registry with an
independent copy of all current entries". -/
def Heap.clone (h : Heap) (id : Nat) : Heap × Nat := Heap.alloc h (Heap.getReg h id)

/-- In-place `add(values)` on the registry object `id`. -/
def Heap.addReg (h : Heap) (id : Nat) (values : Reg) : Heap :=
  Heap.setReg h id (BindParam.add (Heap.getReg h id) values)

/-- In-place `getUniqueNameAndAdd` on the registry object `id`, returning
the name actually used. -/
def Heap.getUniqueNameAndAddReg (h : Heap) (id : Nat) (pref : String) (v : Value) :
    Heap × String :=
  (Heap.setReg h id (BindParam.getUniqueNameAndAdd (Heap.getReg h id) pref v).1,
   (BindParam.getUniqueNameAndAdd (Heap.getReg h id) pref v).2)

theorem Heap.regsGet_append_self (l : List Reg) (c : Reg) :
    Heap.regsGet (l ++ [c]) l.length = c := by
  induction l with
  | nil => rfl
  | cons r rs ih => simpa [Heap.regsGet] using ih

theorem Heap.regsGet_append_lt (l m : List Reg) (j : Nat) (h : j < l.length) :
    Heap.regsGet (l ++ m) j = Heap.regsGet l j := by
  induction l generalizing j with
  | nil => cases h
  | cons r rs ih =>
      cases j with
      | zero => rfl
      | succ n => exact ih n (by simpa using Nat.lt_of_succ_lt_succ h)

theorem Heap.regsGet_set_self (l : List Reg) (i : Nat) (x : Reg) (h : i < l.length) :
    Heap.regsGet (Heap.regsSet l i x) i = x := by
  induction l generalizing i with
  | nil => cases h
  | cons r rs ih =>
      cases i with
      | zero => rfl
      | succ n => exact ih n (by simpa using Nat.lt_of_succ_lt_succ h)

theorem Heap.regsGet_set_ne (l : List Reg) (i j : Nat) (x : Reg) (h : i ≠ j) :
    Heap.regsGet (Heap.regsSet l i x) j = Heap.regsGet l j := by
  induction l generalizing i j with
  | nil => rfl
  | cons r rs ih =>
      cases i with
      | zero =>
          cases j with
          | zero => exact absurd rfl h
          | succ m => rfl
      | succ n =>
          cases j with
          | zero => rfl
          | succ m => exact ih n m (by intro he; exact h (by rw [he]))

theorem Heap.regsSet_length (l : List Reg) (i : Nat) (x : Reg) :
    (Heap.regsSet l i x).length = l.length := by
  induction l generalizing i with
  | nil => rfl
  | cons r rs ih =>
      cases i with
      | zero => rfl
      | succ n => simpa [Heap.regsSet] using ih n

/-- `WhereStatementI`: a ready-to-inline filter expression string paired
with (a heap reference to) the `BindParam` holding its bound values. -/
structure WhereStatementI where
  statement : String
  bindParam : Nat
  deriving DecidableEq, Repr

/-- Relationship direction: `'out' | 'in' | 'none'` (`inn` embeds `'in'`,
which is a reserved word here). -/
inductive Direction where
  | out
  | inn
  | none
  deriving DecidableEq, Repr

/-- The `relationship` field of `CreateRelationshipParamsI`. -/
structure RelationshipI where
  label : String
  direction : Direction
  values : Option Reg
  deriving DecidableEq, Repr

/-- An endpoint description (`{ label: string }`). -/
structure NodeI where
  label : String
  deriving DecidableEq, Repr

/-- `CreateRelationshipParamsI`.  The `where` field is required by the
TypeScript type; it is embedded as an `Option` so that a caller contract
violation (passing `undefined`) is expressible (`whereArg = none`). -/
structure CreateRelationshipParamsI where
  a : NodeI
  b : NodeI
  relationship : RelationshipI
  whereArg : Option WhereStatementI
  deriving DecidableEq, Repr

/-- `QueryRunner.getLabel`: "surrounds the label with backticks to also
allow spaces". -/
def getLabel (label : String) : String := "`" ++ label ++ "`"

/-- `QueryRunner.createMany`.  The `(statement, parameters)` pair handed to
`session.run` is returned; the heap is untouched (no `BindParam` is
involved). -/
def createMany (h : Heap) (nodesLabel : String) (options : List (List (String × Prim))) :
    Heap × String × Reg :=
  let label := getLabel nodesLabel
  let statement := "\n            UNWIND \x7boptions\x7d as " ++ label ++
    "\n            CREATE (node: " ++ label ++
    "\x29\n            SET node = " ++ label ++
    "\n            RETURN " ++ label ++ ";\n        "
  let parameters : Reg := [("options", Value.objArr options)]
  (h, statement, parameters)

/-- `QueryRunner.editMany`: statement text built from the match template,
the optional `WHERE` interpolation and the `SET ... += { options }` tail;
parameters are `BindParam.acquire(where?.bindParam).clone().add(options).get()`. -/
def editMany (h : Heap) (nodesLabel : String) (options : Reg)
    (whereArg : Option WhereStatementI) : Heap × String × Reg :=
  let label := getLabel nodesLabel
  let s1 := "\n            MATCH (" ++ label ++ ": " ++ label ++ "\x29\n        "
  let s2 := match whereArg with
    | some w => s1 ++ ("WHERE " ++ w.statement)
    | Option.none => s1
  let statement := s2 ++ ("\n            SET " ++ label ++
    " += \x7b options \x7d\n            return " ++ label ++ "\n        ")
  let acq := Heap.acquire h (whereArg.map fun w => w.bindParam)
  let cl := Heap.clone acq.1 acq.2
  let h3 := Heap.addReg cl.1 cl.2 options
  let parameters := Heap.getReg h3 cl.2
  (h3, statement, parameters)

/-- `QueryRunner.deleteMany`: same match template and optional `WHERE`,
followed by the optional-match/delete tail; parameters are
`{ ...where?.bindParam.get() }` (read-only, no clone, no extension). -/
def deleteMany (h : Heap) (nodesLabel : String)
    (whereArg : Option WhereStatementI) : Heap × String × Reg :=
  let label := getLabel nodesLabel
  let s1 := "\n            MATCH (" ++ label ++ ": " ++ label ++ "\x29\n        "
  let s2 := match whereArg with
    | some w => s1 ++ ("WHERE " ++ w.statement)
    | Option.none => s1
  let statement := s2 ++ ("\n            OPTIONAL MATCH (" ++ label ++
    "\x29-[r]-(\x29\n            DELETE " ++ label ++ ",r\n        ")
  let parameters := match whereArg with
    | some w => Heap.getReg h w.bindParam
    | Option.none => []
  (h, statement, parameters)

/-- The `directionString` of `createRelationship` (line 132): a ternary on
`relationship.direction === 'in'` for the left glyph and on
`=== 'out'` for the right glyph, around `[r:` + escaped label + `]`. -/
def directionStringOf (d : Direction) (relLabel : String) : String :=
  (match d with | Direction.inn => "<-" | _ => "-") ++
    "[r:" ++ getLabel relLabel ++ "]" ++
    (match d with | Direction.out => "->" | _ => "-")

/-- The `for (const key in relationship.values)` loop of
`createRelationship`: each value is added to the registry object `id` via
`getUniqueNameAndAdd(key, value)` and the clause
`r.<key> = {<paramName>}` is pushed. -/
def relValuesLoop (id : Nat) : Heap → Reg → Heap × List String
  | h, [] => (h, [])
  | h, (k, v) :: rest =>
      let step := Heap.getUniqueNameAndAddReg h id k v
      let tail := relValuesLoop id step.1 rest
      (tail.1, ("r." ++ k ++ " = \x7b" ++ step.2 ++ "\x7d") :: tail.2)

/-- Heap-free restatement of `relValuesLoop` acting directly on registry
contents, used to characterise it. -/
def pureLoop : Reg → Reg → Reg × List String
  | b, [] => (b, [])
  | b, (k, v) :: rest =>
      let step := BindParam.getUniqueNameAndAdd b k v
      let tail := pureLoop step.1 rest
      (tail.1, ("r." ++ k ++ " = \x7b" ++ step.2 ++ "\x7d") :: tail.2)

/-- The JavaScript `TypeError` raised by `where.bindParam` when the
required `where` argument is absent (`undefined`). -/
def missingWhereMsg : String :=
  "TypeError: Cannot read properties of undefined (reading bindParam)"

/-- `QueryRunner.createRelationship`.  With an absent `where` the property
access `where.bindParam` throws, embedded as `Except.error`; otherwise the
`(statement, parameters)` pair handed to `session.run` is returned. -/
def createRelationship (h : Heap) (p : CreateRelationshipParamsI) :
    Except String (Heap × String × Reg) :=
  match p.whereArg with
  | Option.none => Except.error missingWhereMsg
  | some w =>
      let directionString := directionStringOf p.relationship.direction p.relationship.label
      let acq := Heap.acquire h (some w.bindParam)
      let cl := Heap.clone acq.1 acq.2
      let rap := Heap.alloc cl.1 (Heap.getReg cl.1 cl.2)
      let looped := match p.relationship.values with
        | some vs => relValuesLoop rap.2 rap.1 vs
        | Option.none => (rap.1, ([] : List String))
      let relationshipValuesStatement :=
        if looped.2.isEmpty then "" else "SET " ++ String.intercalate ", " looped.2
      let statement := "\n            MATCH (a:" ++ getLabel p.a.label ++
        "\x29, (b:" ++ getLabel p.b.label ++
        "\x29\n            WHERE " ++ w.statement ++
        "\n            CREATE (a\x29" ++ directionString ++
        "(b\x29\n            " ++ relationshipValuesStatement ++ "\n        "
      Except.ok (looped.1, statement, Heap.getReg looped.1 rap.2)

/-- The `String × Reg` part of a non-throwing `createRelationship` result:
what is handed to `session.run`. -/
def exceptRun (r : Except String (Heap × String × Reg)) : Option (String × Reg) :=
  match r with
  | Except.ok t => some t.2
  | Except.error _ => Option.none

/-- The heap after a `createRelationship` call (unchanged if it threw). -/
def exceptHeap (r : Except String (Heap × String × Reg)) (h0 : Heap) : Heap :=
  match r with
  | Except.ok t => t.1
  | Except.error _ => h0

/-- `NeogmaNotFoundError`: message plus optional structured data payload. -/
structure NeogmaNotFoundError where
  message : String
  data : Option (List (String × Prim))
  deriving DecidableEq, Repr

/-- The `NeogmaNotFoundError` constructor: `this.message = message ||
'neogma not found error'` (the falsy strings `undefined`/`null`/`""` are
embedded as `none` / `some ""`), `this.data = data` as passed. -/
def NeogmaNotFoundError.make (message : Option String)
    (data : Option (List (String × Prim))) : NeogmaNotFoundError :=
  { message := match message with
      | Option.none => "neogma not found error"
      | some s => if s = "" then "neogma not found error" else s
    data := data }

/-- The fixed `MATCH` template shared by `editMany` and `deleteMany`. -/
def matchHead (nodesLabel : String) : String :=
  "\n            MATCH (" ++ getLabel nodesLabel ++ ": " ++ getLabel nodesLabel ++ "\x29\n        "

/-- The filter-clause text: `WHERE ` plus the Where's expression string
when a Where clause is supplied, nothing otherwise. -/
def whereClauseText : Option WhereStatementI → String
  | some w => "WHERE " ++ w.statement
  | Option.none => ""

/-- The `SET ... += { options } return ...` tail of the `editMany`
statement. -/
def editTail (nodesLabel : String) : String :=
  "\n            SET " ++ getLabel nodesLabel ++
    " += \x7b options \x7d\n            return " ++ getLabel nodesLabel ++ "\n        "

/-- The optional-match/delete tail of the `deleteMany` statement. -/
def deleteTail (nodesLabel : String) : String :=
  "\n            OPTIONAL MATCH (" ++ getLabel nodesLabel ++
    "\x29-[r]-(\x29\n            DELETE " ++ getLabel nodesLabel ++ ",r\n        "

/-- The contents of the registry referenced by an optional Where clause
(empty when absent, matching `BindParam.acquire(undefined)`). -/
def whereReg (h : Heap) (wo : Option WhereStatementI) : Reg :=
  match wo with
  | some w => Heap.getReg h w.bindParam
  | Option.none => []

/-- Observable input of an operation seeded from an optional Where clause:
its expression string together with its registry's contents. -/
def whereContents (h : Heap) (wo : Option WhereStatementI) : Option (String × Reg) :=
  wo.map fun w => (w.statement, Heap.getReg h w.bindParam)

theorem editMany_statement (h : Heap) (nodesLabel : String) (options : Reg)
    (whereArg : Option WhereStatementI) :
    (editMany h nodesLabel options whereArg).2.1 =
      matchHead nodesLabel ++ whereClauseText whereArg ++ editTail nodesLabel := by
  cases whereArg with
  | none =>
      rw [show matchHead nodesLabel ++ whereClauseText Option.none = matchHead nodesLabel from
        String.append_empty _]
      rfl
  | some w => rfl

theorem deleteMany_statement (h : Heap) (nodesLabel : String)
    (whereArg : Option WhereStatementI) :
    (deleteMany h nodesLabel whereArg).2.1 =
      matchHead nodesLabel ++ whereClauseText whereArg ++ deleteTail nodesLabel := by
  cases whereArg with
  | none =>
      rw [show matchHead nodesLabel ++ whereClauseText Option.none = matchHead nodesLabel from
        String.append_empty _]
      rfl
  | some w => rfl

theorem deleteMany_params (h : Heap) (nodesLabel : String)
    (whereArg : Option WhereStatementI) :
    (deleteMany h nodesLabel whereArg).2.2 = whereReg h whereArg := by
  cases whereArg <;> rfl

theorem deleteMany_heap (h : Heap) (nodesLabel : String)
    (whereArg : Option WhereStatementI) :
    (deleteMany h nodesLabel whereArg).1 = h := rfl

theorem editMany_params (h : Heap) (nodesLabel : String) (options : Reg)
    (whereArg : Option WhereStatementI) :
    (editMany h nodesLabel options whereArg).2.2 =
      BindParam.add (whereReg h whereArg) options := by
  cases whereArg with
  | none =>
      simp only [editMany, Heap.acquire, Heap.clone, Heap.alloc, Heap.addReg, Heap.setReg,
        Heap.getReg, whereReg, Option.map_none']
      rw [Heap.regsGet_append_self (h.regs ++ [[]]) (Heap.regsGet (h.regs ++ [[]]) h.regs.length)]
      rw [Heap.regsGet_append_self h.regs ([] : Reg)]
      rw [Heap.regsGet_set_self]
      simp
  | some w =>
      simp only [editMany, Heap.acquire, Heap.clone, Heap.alloc, Heap.addReg, Heap.setReg,
        Heap.getReg, whereReg, Option.map_some']
      rw [Heap.regsGet_append_self h.regs (Heap.regsGet h.regs w.bindParam)]
      rw [Heap.regsGet_set_self]
      simp

theorem editMany_frame (h : Heap) (nodesLabel : String) (options : Reg)
    (whereArg : Option WhereStatementI) (j : Nat) (hj : j < h.regs.length) :
    Heap.getReg (editMany h nodesLabel options whereArg).1 j = Heap.getReg h j := by
  cases whereArg with
  | none =>
      simp only [editMany, Heap.acquire, Heap.clone, Heap.alloc, Heap.addReg, Heap.setReg,
        Heap.getReg, Option.map_none']
      have hne : (h.regs ++ ([] : Reg) :: []).length ≠ j := by
        simp
        omega
      rw [Heap.regsGet_set_ne _ _ _ _ hne]
      have hj1 : j < (h.regs ++ ([] : Reg) :: []).length := by
        simp
        omega
      rw [Heap.regsGet_append_lt _ _ _ hj1, Heap.regsGet_append_lt _ _ _ hj]
  | some w =>
      simp only [editMany, Heap.acquire, Heap.clone, Heap.alloc, Heap.addReg, Heap.setReg,
        Heap.getReg, Option.map_some']
      have hne : h.regs.length ≠ j := by omega
      rw [Heap.regsGet_set_ne _ _ _ _ hne, Heap.regsGet_append_lt _ _ _ hj]

/-- The `createRelationship` statement text as a function of the labels,
relationship descriptor, Where expression and emitted `SET` clauses. -/
def crStatementText (aLabel bLabel : String) (rel : RelationshipI) (wstmt : String)
    (strs : List String) : String :=
  "\n            MATCH (a:" ++ getLabel aLabel ++
    "\x29, (b:" ++ getLabel bLabel ++
    "\x29\n            WHERE " ++ wstmt ++
    "\n            CREATE (a\x29" ++ directionStringOf rel.direction rel.label ++
    "(b\x29\n            " ++
    (if strs.isEmpty then "" else "SET " ++ String.intercalate ", " strs) ++ "\n        "

theorem relValuesLoop_spec (id : Nat) (vs : Reg) :
    ∀ h : Heap, id < h.regs.length →
      (relValuesLoop id h vs).2 = (pureLoop (Heap.getReg h id) vs).2 ∧
      Heap.getReg (relValuesLoop id h vs).1 id = (pureLoop (Heap.getReg h id) vs).1 ∧
      ((relValuesLoop id h vs).1).regs.length = h.regs.length ∧
      ∀ j, j ≠ id → Heap.getReg (relValuesLoop id h vs).1 j = Heap.getReg h j := by
  induction vs with
  | nil => intro h hid; exact ⟨rfl, rfl, rfl, fun j _ => rfl⟩
  | cons kv rest ih =>
      obtain ⟨k, v⟩ := kv
      intro h hid
      have hstep1 : (Heap.getUniqueNameAndAddReg h id k v).1.regs.length = h.regs.length := by
        simp [Heap.getUniqueNameAndAddReg, Heap.setReg, Heap.regsSet_length]
      have hid1 : id < (Heap.getUniqueNameAndAddReg h id k v).1.regs.length := by
        rw [hstep1]; exact hid
      have hcontent : Heap.getReg (Heap.getUniqueNameAndAddReg h id k v).1 id
          = (BindParam.getUniqueNameAndAdd (Heap.getReg h id) k v).1 := by
        show Heap.regsGet (Heap.regsSet h.regs id _) id = _
        exact Heap.regsGet_set_self _ _ _ hid
      obtain ⟨ih1, ih2, ih3, ih4⟩ := ih (Heap.getUniqueNameAndAddReg h id k v).1 hid1
      rw [hcontent] at ih1 ih2
      refine ⟨?_, ?_, ?_, ?_⟩
      · show _ :: (relValuesLoop id (Heap.getUniqueNameAndAddReg h id k v).1 rest).2
            = _ :: (pureLoop (BindParam.getUniqueNameAndAdd (Heap.getReg h id) k v).1 rest).2
        rw [ih1]
        rfl
      · show Heap.getReg (relValuesLoop id (Heap.getUniqueNameAndAddReg h id k v).1 rest).1 id
            = (pureLoop (BindParam.getUniqueNameAndAdd (Heap.getReg h id) k v).1 rest).1
        rw [ih2]
      · show ((relValuesLoop id (Heap.getUniqueNameAndAddReg h id k v).1 rest).1).regs.length
            = h.regs.length
        rw [ih3, hstep1]
      · intro j hj
        show Heap.getReg (relValuesLoop id (Heap.getUniqueNameAndAddReg h id k v).1 rest).1 j
            = Heap.getReg h j
        rw [ih4 j hj]
        show Heap.regsGet (Heap.regsSet h.regs id _) j = Heap.regsGet h.regs j
        exact Heap.regsGet_set_ne _ _ _ _ (Ne.symm hj)

theorem pureLoop_preserve (vs : Reg) : ∀ (b : Reg) (k : String) (v : Value),
    BindParam.lookup b k = some v → BindParam.lookup (pureLoop b vs).1 k = some v := by
  induction vs with
  | nil => intro b k v hv; exact hv
  | cons kv rest ih =>
      obtain ⟨k0, v0⟩ := kv
      intro b k v hv
      exact ih _ k v (BindParam.lookup_append_left _ _ _ _ hv)

theorem pureLoop_clauses (vs : Reg) : ∀ b : Reg,
    List.Forall₂ (fun (kv : String × Value) (s : String) => ∃ n : String,
        s = "r." ++ kv.1 ++ " = \x7b" ++ n ++ "\x7d" ∧
        BindParam.lookup (pureLoop b vs).1 n = some kv.2 ∧
        n ∉ BindParam.keys b) vs (pureLoop b vs).2 := by
  induction vs with
  | nil => intro b; exact List.Forall₂.nil
  | cons kv rest ih =>
      obtain ⟨k0, v0⟩ := kv
      intro b
      refine List.Forall₂.cons ?_ ?_
      · refine ⟨BindParam.getUniqueName b k0, rfl, ?_, BindParam.getUniqueName_not_mem b k0⟩
        exact pureLoop_preserve rest _ _ _
          (BindParam.lookup_snoc_self b _ v0 (BindParam.getUniqueName_not_mem b k0))
      · refine List.Forall₂.imp ?_ (ih (b ++ [(BindParam.getUniqueName b k0, v0)]))
        intro x y hxy
        obtain ⟨n, h1, h2, h3⟩ := hxy
        refine ⟨n, h1, h2, ?_⟩
        intro hn
        exact h3 (by rw [BindParam.keys_append]; exact List.mem_append_left _ hn)

theorem createRelationship_missing (h : Heap) (p : CreateRelationshipParamsI)
    (hw : p.whereArg = Option.none) :
    createRelationship h p = Except.error missingWhereMsg := by
  rcases p with ⟨a, b, rel, wo⟩
  simp only at hw
  subst hw
  rfl

theorem Heap.getReg_mk (l : List Reg) (i : Nat) :
    Heap.getReg ⟨l⟩ i = Heap.regsGet l i := rfl

theorem createRelationship_run (h : Heap) (p : CreateRelationshipParamsI) (w : WhereStatementI)
    (hw : p.whereArg = some w) :
    exceptRun (createRelationship h p) =
      some (crStatementText p.a.label p.b.label p.relationship w.statement
              (pureLoop (Heap.getReg h w.bindParam) (p.relationship.values.getD [])).2,
            (pureLoop (Heap.getReg h w.bindParam) (p.relationship.values.getD [])).1) := by
  rcases p with ⟨a, b, rel, wo⟩
  simp only at hw
  subst hw
  rcases rel with ⟨rlabel, rdir, rvalues⟩
  cases rvalues with
  | none =>
      simp only [createRelationship, exceptRun, crStatementText, Option.getD, pureLoop,
        Heap.acquire, Heap.clone, Heap.alloc, Heap.getReg_mk]
      rw [Heap.regsGet_append_self, Heap.regsGet_append_self]
  | some vs =>
      simp only [createRelationship, exceptRun, crStatementText, Option.getD,
        Heap.acquire, Heap.clone, Heap.alloc, Heap.getReg_mk]
      have hid : (h.regs ++ [Heap.getReg h w.bindParam]).length
          < ((h.regs ++ [Heap.getReg h w.bindParam]) ++
              [Heap.regsGet (h.regs ++ [Heap.getReg h w.bindParam]) h.regs.length]).length := by
        simp
      obtain ⟨l1, l2, _, _⟩ := relValuesLoop_spec (h.regs ++ [Heap.getReg h w.bindParam]).length
        vs ⟨(h.regs ++ [Heap.getReg h w.bindParam]) ++
              [Heap.regsGet (h.regs ++ [Heap.getReg h w.bindParam]) h.regs.length]⟩ hid
      have hc : Heap.getReg (⟨(h.regs ++ [Heap.getReg h w.bindParam]) ++
              [Heap.regsGet (h.regs ++ [Heap.getReg h w.bindParam]) h.regs.length]⟩ : Heap)
            (h.regs ++ [Heap.getReg h w.bindParam]).length
          = Heap.getReg h w.bindParam := by
        rw [Heap.getReg_mk, Heap.regsGet_append_self, Heap.regsGet_append_self]
      rw [hc] at l1 l2
      rw [l1, l2]

theorem createRelationship_frame (h : Heap) (p : CreateRelationshipParamsI) (w : WhereStatementI)
    (hw : p.whereArg = some w) (j : Nat) (hj : j < h.regs.length) :
    Heap.getReg (exceptHeap (createRelationship h p) h) j = Heap.getReg h j := by
  rcases p with ⟨a, b, rel, wo⟩
  simp only at hw
  subst hw
  rcases rel with ⟨rlabel, rdir, rvalues⟩
  have hj1 : j < (h.regs ++ [Heap.getReg h w.bindParam]).length := by
    simp
    omega
  cases rvalues with
  | none =>
      simp only [createRelationship, exceptHeap, Heap.acquire, Heap.clone, Heap.alloc,
        Heap.getReg_mk]
      rw [Heap.regsGet_append_lt _ _ _ hj1, Heap.regsGet_append_lt _ _ _ hj]
      rfl
  | some vs =>
      simp only [createRelationship, exceptHeap, Heap.acquire, Heap.clone, Heap.alloc,
        Heap.getReg_mk]
      have hid : (h.regs ++ [Heap.getReg h w.bindParam]).length
          < ((h.regs ++ [Heap.getReg h w.bindParam]) ++
              [Heap.regsGet (h.regs ++ [Heap.getReg h w.bindParam]) h.regs.length]).length := by
        simp
      obtain ⟨_, _, _, l4⟩ := relValuesLoop_spec (h.regs ++ [Heap.getReg h w.bindParam]).length
        vs ⟨(h.regs ++ [Heap.getReg h w.bindParam]) ++
              [Heap.regsGet (h.regs ++ [Heap.getReg h w.bindParam]) h.regs.length]⟩ hid
      have hne : j ≠ (h.regs ++ [Heap.getReg h w.bindParam]).length := by
        simp
        omega
      rw [l4 j hne, Heap.getReg_mk, Heap.regsGet_append_lt _ _ _ hj1,
        Heap.regsGet_append_lt _ _ _ hj]
      rfl

theorem editMany_ext (h1 h2 : Heap) (nodesLabel : String) (options : Reg)
    (wo1 wo2 : Option WhereStatementI)
    (hw : whereContents h1 wo1 = whereContents h2 wo2) :
    (editMany h1 nodesLabel options wo1).2 = (editMany h2 nodesLabel options wo2).2 := by
  cases wo1 with
  | none =>
      cases wo2 with
      | none =>
          apply Prod.ext
          · rw [editMany_statement, editMany_statement]
          · rw [editMany_params, editMany_params]
            rfl
      | some w2 => simp [whereContents] at hw
  | some w1 =>
      cases wo2 with
      | none => simp [whereContents] at hw
      | some w2 =>
          simp only [whereContents, Option.map_some'] at hw
          injection hw with hw'
          injection hw' with hs hc
          apply Prod.ext
          · rw [editMany_statement, editMany_statement]
            simp only [whereClauseText]
            rw [hs]
          · rw [editMany_params, editMany_params]
            simp only [whereReg]
            rw [hc]

theorem deleteMany_ext (h1 h2 : Heap) (nodesLabel : String)
    (wo1 wo2 : Option WhereStatementI)
    (hw : whereContents h1 wo1 = whereContents h2 wo2) :
    (deleteMany h1 nodesLabel wo1).2 = (deleteMany h2 nodesLabel wo2).2 := by
  cases wo1 with
  | none =>
      cases wo2 with
      | none =>
          apply Prod.ext
          · rw [deleteMany_statement, deleteMany_statement]
          · rw [deleteMany_params, deleteMany_params]
            rfl
      | some w2 => simp [whereContents] at hw
  | some w1 =>
      cases wo2 with
      | none => simp [whereContents] at hw
      | some w2 =>
          simp only [whereContents, Option.map_some'] at hw
          injection hw with hw'
          injection hw' with hs hc
          apply Prod.ext
          · rw [deleteMany_statement, deleteMany_statement]
            simp only [whereClauseText]
            rw [hs]
          · rw [deleteMany_params, deleteMany_params]
            simp only [whereReg]
            rw [hc]

theorem createRelationship_ext (h1 h2 : Heap) (p1 p2 : CreateRelationshipParamsI)
    (ha : p1.a = p2.a) (hb : p1.b = p2.b) (hr : p1.relationship = p2.relationship)
    (hpw : whereContents h1 p1.whereArg = whereContents h2 p2.whereArg) :
    exceptRun (createRelationship h1 p1) = exceptRun (createRelationship h2 p2) := by
  rcases hpa : p1.whereArg with _ | w1 <;> rcases hpb : p2.whereArg with _ | w2 <;>
    rw [hpa, hpb] at hpw
  · rw [createRelationship_missing h1 p1 hpa, createRelationship_missing h2 p2 hpb]
  · simp [whereContents] at hpw
  · simp [whereContents] at hpw
  · simp only [whereContents, Option.map_some'] at hpw
    injection hpw with hpw'
    injection hpw' with hs hc
    rw [createRelationship_run h1 p1 w1 hpa, createRelationship_run h2 p2 w2 hpb,
      ha, hb, hr, hs, hc]

/-- Claim C3: for every relationship label, the relationship segment of the
`createRelationship` statement renders as `-[r:` + escaped label + `]->`
for direction `out`, `<-[r:` + escaped label + `]-` for `in`, and
`-[r:` + escaped label + `]-` for `none`, with the label backtick-escaped
and the alias `r`. -/
theorem claim3_direction_encoding (relLabel : String) :
    directionStringOf Direction.out relLabel = "-[r:" ++ getLabel relLabel ++ "]->" ∧
    directionStringOf Direction.inn relLabel = "<-[r:" ++ getLabel relLabel ++ "]-" ∧
    directionStringOf Direction.none relLabel = "-[r:" ++ getLabel relLabel ++ "]-" ∧
    getLabel relLabel = "`" ++ relLabel ++ "`" := by
  refine ⟨?_, ?_, ?_, rfl⟩
  · show ((("-" ++ "[r:") ++ getLabel relLabel) ++ "]") ++ "->"
        = ("-[r:" ++ getLabel relLabel) ++ "]->"
    rw [String.append_assoc]
    rfl
  · show ((("<-" ++ "[r:") ++ getLabel relLabel) ++ "]") ++ "-"
        = ("<-[r:" ++ getLabel relLabel) ++ "]-"
    rw [String.append_assoc]
    rfl
  · show ((("-" ++ "[r:") ++ getLabel relLabel) ++ "]") ++ "-"
        = ("-[r:" ++ getLabel relLabel) ++ "]-"
    rw [String.append_assoc]
    rfl

/-- Claim C5: for every label and list of plain value objects, `createMany`
submits to `run` exactly the parameters `{ options: <the list> }` together
with the unwind-and-create statement over `options` using the
backtick-escaped label (create one node per item, set its properties from
the item, return the created nodes); the heap of registries is untouched. -/
theorem claim5_createMany_unwind (h : Heap) (nodesLabel : String)
    (options : List (List (String × Prim))) :
    createMany h nodesLabel options =
      (h,
       "\n            UNWIND \x7boptions\x7d as " ++ getLabel nodesLabel ++
         "\n            CREATE (node: " ++ getLabel nodesLabel ++
         "\x29\n            SET node = " ++ getLabel nodesLabel ++
         "\n            RETURN " ++ getLabel nodesLabel ++ ";\n        ",
       [("options", Value.objArr options)]) ∧
    getLabel nodesLabel = "`" ++ nodesLabel ++ "`" := ⟨rfl, rfl⟩

/-- Claim C7: for `editMany` and `deleteMany` the statement text is the
fixed match template, then a filter clause that is present if and only if
a Where clause is supplied (`WHERE ` followed by the Where's expression
string), then the operation's tail. -/
theorem claim7_where_clause_iff (h : Heap) (nodesLabel : String) (options : Reg)
    (whereArg : Option WhereStatementI) :
    (editMany h nodesLabel options whereArg).2.1 =
        matchHead nodesLabel ++ whereClauseText whereArg ++ editTail nodesLabel ∧
    (deleteMany h nodesLabel whereArg).2.1 =
        matchHead nodesLabel ++ whereClauseText whereArg ++ deleteTail nodesLabel ∧
    (whereClauseText whereArg = "" ↔ whereArg = Option.none) ∧
    (∀ w : WhereStatementI, whereClauseText (some w) = "WHERE " ++ w.statement) := by
  refine ⟨editMany_statement h nodesLabel options whereArg,
    deleteMany_statement h nodesLabel whereArg, ?_, fun w => rfl⟩
  cases whereArg with
  | none => simp [whereClauseText]
  | some w =>
      simp only [whereClauseText]
      constructor
      · intro he
        have hl := congrArg String.length he
        rw [String.length_append] at hl
        rw [show ("WHERE " : String).length = 6 from rfl,
          show ("" : String).length = 0 from rfl] at hl
        omega
      · intro hn
        simp at hn

/-- Claim C10: constructing a `NeogmaNotFoundError` with a falsy or absent
message yields the default message `neogma not found error`; a non-empty
message is stored exactly as given; the optional data payload is stored as
passed (possibly absent). -/
theorem claim10_not_found_error (message : Option String)
    (data : Option (List (String × Prim))) :
    ((message = Option.none ∨ message = some "") →
        (NeogmaNotFoundError.make message data).message = "neogma not found error") ∧
    (∀ s : String, message = some s → s ≠ "" →
        (NeogmaNotFoundError.make message data).message = s) ∧
    (NeogmaNotFoundError.make message data).data = data := by
  refine ⟨?_, ?_, rfl⟩
  · intro hm
    rcases hm with hm | hm <;> subst hm <;> simp [NeogmaNotFoundError.make]
  · intro s hs hne
    subst hs
    simp [NeogmaNotFoundError.make, hne]

/-- Witness for claim C10 at concrete inputs: absent and empty messages
give the default, a non-empty message and the data payload are stored as
passed. -/
theorem claim10_witness :
    (NeogmaNotFoundError.make Option.none (some [("k", Prim.num 5)])).message
        = "neogma not found error" ∧
    (NeogmaNotFoundError.make (some "") Option.none).message
        = "neogma not found error" ∧
    (NeogmaNotFoundError.make (some "boom") (some [])).message = "boom" ∧
    (NeogmaNotFoundError.make (some "boom") (some [])).data = some [] :=
  ⟨(claim10_not_found_error Option.none (some [("k", Prim.num 5)])).1 (Or.inl rfl),
   (claim10_not_found_error (some "") Option.none).1 (Or.inr rfl),
   (claim10_not_found_error (some "boom") (some [])).2.1 "boom" rfl (by decide),
   (claim10_not_found_error (some "boom") (some [])).2.2⟩

/-- Claim C1 (code bug, evaluated at the failing input): the claim — and
the statement's own `SET ... += { options }` text — requires the final
parameters of `editMany` to carry the edit payload under the key
`options`; the code instead merges the payload's fields individually
(`.add(options)`), so for label `Person`, payload `{age: 30}` and a Where
binding `id = 1` the submitted parameters are `{id: 1, age: 30}` with no
`options` key at all, even though the emitted statement interpolates the
`options` placeholder. -/
theorem claim1_editMany_options_key_bug :
    (editMany ⟨[[("id", Value.prim (Prim.num 1))]]⟩ "Person"
        [("age", Value.prim (Prim.num 30))]
        (some ⟨"`Person`.id = \x7bid\x7d", 0⟩)).2.2 =
      [("id", Value.prim (Prim.num 1)), ("age", Value.prim (Prim.num 30))] ∧
    BindParam.lookup
        (editMany ⟨[[("id", Value.prim (Prim.num 1))]]⟩ "Person"
          [("age", Value.prim (Prim.num 30))]
          (some ⟨"`Person`.id = \x7bid\x7d", 0⟩)).2.2 "options" = Option.none ∧
    (editMany ⟨[[("id", Value.prim (Prim.num 1))]]⟩ "Person"
        [("age", Value.prim (Prim.num 30))]
        (some ⟨"`Person`.id = \x7bid\x7d", 0⟩)).2.1 =
      "\n            MATCH (`Person`: `Person`\x29\n        WHERE `Person`.id = \x7bid\x7d\n            SET `Person` += \x7b options \x7d\n            return `Person`\n        " :=
  ⟨rfl, rfl, rfl⟩

/-- Counterexample to claim C4 as stated: with the required `where`
argument absent, `createRelationship` does not yield a statement with an
empty filter expression and delegate to `run` — the property access
`where.bindParam` throws a `TypeError` (embedded as `Except.error`). -/
theorem claim4_counterexample :
    createRelationship ⟨[]⟩
        ⟨⟨"A"⟩, ⟨"B"⟩, ⟨"R", Direction.out, Option.none⟩, Option.none⟩ =
      Except.error missingWhereMsg := rfl

/-- Claim C4 as amended: for `createRelationship` invoked with an absent
`where` argument, the operation throws a `TypeError` at this layer (the
`where.bindParam` property access on `undefined`) and nothing is ever
handed to `run`. -/
theorem claim4_missing_where_throws (h : Heap) (p : CreateRelationshipParamsI)
    (hw : p.whereArg = Option.none) :
    createRelationship h p = Except.error missingWhereMsg ∧
    exceptRun (createRelationship h p) = Option.none := by
  have he := createRelationship_missing h p hw
  exact ⟨he, by rw [he]; rfl⟩

/-- Witness for the amended claim C4 at a concrete input. -/
theorem claim4_witness :
    createRelationship ⟨[[("z", Value.prim (Prim.str "q"))]]⟩
        ⟨⟨"X"⟩, ⟨"Y"⟩, ⟨"REL", Direction.inn, some [("a", Value.prim (Prim.num 5))]⟩,
          Option.none⟩ =
      Except.error missingWhereMsg ∧
    exceptRun (createRelationship ⟨[[("z", Value.prim (Prim.str "q"))]]⟩
        ⟨⟨"X"⟩, ⟨"Y"⟩, ⟨"REL", Direction.inn, some [("a", Value.prim (Prim.num 5))]⟩,
          Option.none⟩) = Option.none :=
  claim4_missing_where_throws ⟨[[("z", Value.prim (Prim.str "q"))]]⟩
    ⟨⟨"X"⟩, ⟨"Y"⟩, ⟨"REL", Direction.inn, some [("a", Value.prim (Prim.num 5))]⟩,
      Option.none⟩ rfl

/-- Counterexample to claim C2 as stated: the claim says each relationship
attribute is added via `getUniqueNameAndAdd` keyed by `r.<field>`, but the
code passes the bare field name — for values `{since: 2020}` over an empty
preferred-name space the merged parameters carry the key `since`, and no
key derived from `r.since` exists. -/
theorem claim2_counterexample :
    exceptRun (createRelationship ⟨[[("id", Value.prim (Prim.num 1))]]⟩
        ⟨⟨"A"⟩, ⟨"B"⟩, ⟨"R", Direction.out, some [("since", Value.prim (Prim.num 2020))]⟩,
          some ⟨"a.id = \x7bid\x7d", 0⟩⟩) =
      some ("\n            MATCH (a:`A`\x29, (b:`B`\x29\n            WHERE a.id = \x7bid\x7d\n            CREATE (a\x29-[r:`R`]->(b\x29\n            SET r.since = \x7bsince\x7d\n        ",
        [("id", Value.prim (Prim.num 1)), ("since", Value.prim (Prim.num 2020))]) ∧
    BindParam.lookup [("id", Value.prim (Prim.num 1)), ("since", Value.prim (Prim.num 2020))]
        "r.since" = Option.none := ⟨rfl, rfl⟩

/-- Claim C2 as amended: for `createRelationship`, the parameters handed to
`run` are the Where's registry contents cloned and then each relationship
attribute value added via `getUniqueNameAndAdd` keyed by the bare field
name `<field>` (not `r.<field>`); for each attribute the statement carries
a `SET` clause `r.<field> = {<generatedName>}` referencing the name
actually returned by `getUniqueNameAndAdd` (never the literal value), the
generated names never collide with pre-existing endpoint-matching
parameter names, and no Where-bound entry is lost. -/
theorem claim2_relationship_values (h : Heap) (p : CreateRelationshipParamsI)
    (w : WhereStatementI) (vs : Reg)
    (hw : p.whereArg = some w) (hv : p.relationship.values = some vs) :
    exceptRun (createRelationship h p) =
      some (crStatementText p.a.label p.b.label p.relationship w.statement
              (pureLoop (Heap.getReg h w.bindParam) vs).2,
            (pureLoop (Heap.getReg h w.bindParam) vs).1) ∧
    List.Forall₂ (fun (kv : String × Value) (s : String) => ∃ n : String,
        s = "r." ++ kv.1 ++ " = \x7b" ++ n ++ "\x7d" ∧
        BindParam.lookup (pureLoop (Heap.getReg h w.bindParam) vs).1 n = some kv.2 ∧
        n ∉ BindParam.keys (Heap.getReg h w.bindParam)) vs
      (pureLoop (Heap.getReg h w.bindParam) vs).2 ∧
    (∀ k v, BindParam.lookup (Heap.getReg h w.bindParam) k = some v →
      BindParam.lookup (pureLoop (Heap.getReg h w.bindParam) vs).1 k = some v) := by
  have hr := createRelationship_run h p w hw
  rw [hv, Option.getD_some] at hr
  exact ⟨hr, pureLoop_clauses vs (Heap.getReg h w.bindParam),
    fun k v hv2 => pureLoop_preserve vs _ k v hv2⟩

/-- Witness for the amended claim C2 at a concrete input: with Where
binding `id = 1` and values `{since: 2020}` the merged parameters carry
both entries, the `SET` clause references the generated name `since`, and
the Where-bound entry survives. -/
theorem claim2_witness :
    exceptRun (createRelationship ⟨[[("id", Value.prim (Prim.num 1))]]⟩
        ⟨⟨"A"⟩, ⟨"B"⟩, ⟨"R", Direction.out, some [("since", Value.prim (Prim.num 2020))]⟩,
          some ⟨"a.id = \x7bid\x7d", 0⟩⟩) =
      some ("\n            MATCH (a:`A`\x29, (b:`B`\x29\n            WHERE a.id = \x7bid\x7d\n            CREATE (a\x29-[r:`R`]->(b\x29\n            SET r.since = \x7bsince\x7d\n        ",
        [("id", Value.prim (Prim.num 1)), ("since", Value.prim (Prim.num 2020))]) ∧
    BindParam.lookup [("id", Value.prim (Prim.num 1)), ("since", Value.prim (Prim.num 2020))]
        "id" = some (Value.prim (Prim.num 1)) := by
  obtain ⟨q1, q2, q3⟩ := claim2_relationship_values ⟨[[("id", Value.prim (Prim.num 1))]]⟩
    ⟨⟨"A"⟩, ⟨"B"⟩, ⟨"R", Direction.out, some [("since", Value.prim (Prim.num 2020))]⟩,
      some ⟨"a.id = \x7bid\x7d", 0⟩⟩ ⟨"a.id = \x7bid\x7d", 0⟩
    [("since", Value.prim (Prim.num 2020))] rfl rfl
  exact ⟨q1, q3 "id" (Value.prim (Prim.num 1)) rfl⟩

/-- Claim C8: adding two values under the same preferred name to one
registry (via `getUniqueNameAndAdd`, to which `add` reduces per field)
stores them under distinct names — the preferred name when free, else a
deterministically derived unique variant — both values are present in the
resulting mapping, and no earlier entry is ever overwritten. -/
theorem claim8_unique_names (b : Reg) (n : String) (v1 v2 : Value) (b1 : Reg) (n1 : String)
    (b2 : Reg) (n2 : String)
    (h1 : BindParam.getUniqueNameAndAdd b n v1 = (b1, n1))
    (h2 : BindParam.getUniqueNameAndAdd b1 n v2 = (b2, n2)) :
    n1 ≠ n2 ∧ BindParam.lookup b2 n1 = some v1 ∧ BindParam.lookup b2 n2 = some v2 ∧
    (∀ k v, BindParam.lookup b k = some v → BindParam.lookup b2 k = some v) := by
  simp only [BindParam.getUniqueNameAndAdd] at h1 h2
  injection h1 with hb1 hn1
  subst hb1
  subst hn1
  injection h2 with hb2 hn2
  subst hb2
  subst hn2
  have hN1 := BindParam.getUniqueName_not_mem b n
  have hN2 := BindParam.getUniqueName_not_mem
    (b ++ [(BindParam.getUniqueName b n, v1)]) n
  refine ⟨?_, ?_, ?_, ?_⟩
  · intro he
    apply hN2
    rw [BindParam.keys_append, ← he]
    exact List.mem_append_right _ (by simp [BindParam.keys])
  · exact BindParam.lookup_append_left _ _ _ _
      (BindParam.lookup_snoc_self b _ v1 hN1)
  · exact BindParam.lookup_snoc_self _ _ v2 hN2
  · intro k v hv
    exact BindParam.lookup_append_left _ _ _ _ (BindParam.lookup_append_left _ _ _ _ hv)

/-- Witness for claim C8 at a concrete registry: adding two values with
preferred name `x` to a registry already holding `x` stores them under the
distinct derived names `x1` and `x2`, and the original entry survives. -/
theorem claim8_witness :
    ("x1" : String) ≠ "x2" ∧
    BindParam.lookup [("x", Value.prim (Prim.num 7)), ("x1", Value.prim (Prim.num 1)),
      ("x2", Value.prim (Prim.num 2))] "x1" = some (Value.prim (Prim.num 1)) ∧
    BindParam.lookup [("x", Value.prim (Prim.num 7)), ("x1", Value.prim (Prim.num 1)),
      ("x2", Value.prim (Prim.num 2))] "x2" = some (Value.prim (Prim.num 2)) ∧
    BindParam.lookup [("x", Value.prim (Prim.num 7)), ("x1", Value.prim (Prim.num 1)),
      ("x2", Value.prim (Prim.num 2))] "x" = some (Value.prim (Prim.num 7)) := by
  obtain ⟨q1, q2, q3, q4⟩ := claim8_unique_names [("x", Value.prim (Prim.num 7))] "x"
    (Value.prim (Prim.num 1)) (Value.prim (Prim.num 2))
    [("x", Value.prim (Prim.num 7)), ("x1", Value.prim (Prim.num 1))] "x1"
    [("x", Value.prim (Prim.num 7)), ("x1", Value.prim (Prim.num 1)),
      ("x2", Value.prim (Prim.num 2))] "x2" rfl rfl
  exact ⟨q1, q2, q3, q4 "x" (Value.prim (Prim.num 7)) rfl⟩

/-- Claim C6: `editMany` and `createRelationship`, seeded from a
caller-supplied Where clause's registry, never mutate that source
registry: after the operation the source's contents are unchanged
(clone-before-extend). -/
theorem claim6_no_source_mutation (h : Heap) (nodesLabel : String) (options : Reg)
    (w : WhereStatementI) (p : CreateRelationshipParamsI) (w2 : WhereStatementI)
    (hw : w.bindParam < h.regs.length) (hp : p.whereArg = some w2)
    (hw2 : w2.bindParam < h.regs.length) :
    Heap.getReg (editMany h nodesLabel options (some w)).1 w.bindParam
        = Heap.getReg h w.bindParam ∧
    Heap.getReg (exceptHeap (createRelationship h p) h) w2.bindParam
        = Heap.getReg h w2.bindParam :=
  ⟨editMany_frame h nodesLabel options (some w) w.bindParam hw,
   createRelationship_frame h p w2 hp w2.bindParam hw2⟩

/-- Witness for claim C6 at a concrete heap: the Where clause's registry
`{id: 1}` is unchanged by an `editMany` extension with `{age: 30}` and by
a `createRelationship` whose attribute `{id: 9}` even collides with the
bound name. -/
theorem claim6_witness :
    Heap.getReg (editMany ⟨[[("id", Value.prim (Prim.num 1))]]⟩ "Person"
        [("age", Value.prim (Prim.num 30))] (some ⟨"w", 0⟩)).1 0
      = [("id", Value.prim (Prim.num 1))] ∧
    Heap.getReg (exceptHeap (createRelationship ⟨[[("id", Value.prim (Prim.num 1))]]⟩
        ⟨⟨"A"⟩, ⟨"B"⟩, ⟨"R", Direction.none, some [("id", Value.prim (Prim.num 9))]⟩,
          some ⟨"w", 0⟩⟩) ⟨[[("id", Value.prim (Prim.num 1))]]⟩) 0
      = [("id", Value.prim (Prim.num 1))] :=
  claim6_no_source_mutation ⟨[[("id", Value.prim (Prim.num 1))]]⟩ "Person"
    [("age", Value.prim (Prim.num 30))] ⟨"w", 0⟩
    ⟨⟨"A"⟩, ⟨"B"⟩, ⟨"R", Direction.none, some [("id", Value.prim (Prim.num 9))]⟩,
      some ⟨"w", 0⟩⟩ ⟨"w", 0⟩ (by decide) rfl (by decide)

/-- Claim C9: each of the four assembler operations is deterministic in
its observable inputs — two calls with the same label/payload arguments
whose Where clauses carry the same expression string and the same registry
contents (even on independent heaps with different registry ids) hand the
identical statement text and parameter mapping to `run`. -/
theorem claim9_determinism (h1 h2 : Heap) (nodesLabel : String) (options : Reg)
    (objs : List (List (String × Prim))) (wo1 wo2 : Option WhereStatementI)
    (p1 p2 : CreateRelationshipParamsI)
    (hw : whereContents h1 wo1 = whereContents h2 wo2)
    (ha : p1.a = p2.a) (hb : p1.b = p2.b) (hr : p1.relationship = p2.relationship)
    (hpw : whereContents h1 p1.whereArg = whereContents h2 p2.whereArg) :
    (createMany h1 nodesLabel objs).2 = (createMany h2 nodesLabel objs).2 ∧
    (editMany h1 nodesLabel options wo1).2 = (editMany h2 nodesLabel options wo2).2 ∧
    (deleteMany h1 nodesLabel wo1).2 = (deleteMany h2 nodesLabel wo2).2 ∧
    exceptRun (createRelationship h1 p1) = exceptRun (createRelationship h2 p2) :=
  ⟨rfl, editMany_ext h1 h2 nodesLabel options wo1 wo2 hw,
   deleteMany_ext h1 h2 nodesLabel wo1 wo2 hw,
   createRelationship_ext h1 h2 p1 p2 ha hb hr hpw⟩

/-- Witness for claim C9 on two concrete independent heaps holding the
same Where contents under different registry ids. -/
theorem claim9_witness :
    (createMany ⟨[[("id", Value.prim (Prim.num 1))]]⟩ "L"
        [[("name", Prim.str "a")]]).2
      = (createMany ⟨[[], [("id", Value.prim (Prim.num 1))]]⟩ "L"
        [[("name", Prim.str "a")]]).2 ∧
    (editMany ⟨[[("id", Value.prim (Prim.num 1))]]⟩ "L"
        [("age", Value.prim (Prim.num 30))] (some ⟨"s", 0⟩)).2
      = (editMany ⟨[[], [("id", Value.prim (Prim.num 1))]]⟩ "L"
        [("age", Value.prim (Prim.num 30))] (some ⟨"s", 1⟩)).2 ∧
    (deleteMany ⟨[[("id", Value.prim (Prim.num 1))]]⟩ "L" (some ⟨"s", 0⟩)).2
      = (deleteMany ⟨[[], [("id", Value.prim (Prim.num 1))]]⟩ "L" (some ⟨"s", 1⟩)).2 ∧
    exceptRun (createRelationship ⟨[[("id", Value.prim (Prim.num 1))]]⟩
        ⟨⟨"A"⟩, ⟨"B"⟩, ⟨"R", Direction.out, some [("v", Value.prim (Prim.num 2))]⟩,
          some ⟨"s", 0⟩⟩)
      = exceptRun (createRelationship ⟨[[], [("id", Value.prim (Prim.num 1))]]⟩
        ⟨⟨"A"⟩, ⟨"B"⟩, ⟨"R", Direction.out, some [("v", Value.prim (Prim.num 2))]⟩,
          some ⟨"s", 1⟩⟩) :=
  claim9_determinism ⟨[[("id", Value.prim (Prim.num 1))]]⟩
    ⟨[[], [("id", Value.prim (Prim.num 1))]]⟩ "L"
    [("age", Value.prim (Prim.num 30))] [[("name", Prim.str "a")]]
    (some ⟨"s", 0⟩) (some ⟨"s", 1⟩)
    ⟨⟨"A"⟩, ⟨"B"⟩, ⟨"R", Direction.out, some [("v", Value.prim (Prim.num 2))]⟩,
      some ⟨"s", 0⟩⟩
    ⟨⟨"A"⟩, ⟨"B"⟩, ⟨"R", Direction.out, some [("v", Value.prim (Prim.num 2))]⟩,
      some ⟨"s", 1⟩⟩ rfl rfl rfl rfl rfl
